import Mathlib

/-!
Verification of the deep-research orchestrator (lead/sub-agent research
service): a shallow embedding of its tool layer (`tools.py`), its markdown
renderer and streaming generators (`main.py`), and its fan-out/fan-in
dispatcher (`agent.py`), together with proofs of the specified properties.

Python strings are modelled as Lean `String` (a list of characters, matching
Python's code-point indexing); Python `str` slicing, `len` and `startswith`
are modelled by the `py*` helpers below.  Fallible code is modelled by the
`ToolOutcome` type: `raised` for an exception escaping to the caller,
`returned` for a normal return value; both record how many seconds the call
slept (`asyncio.sleep`) before finishing.
-/

/-- Concatenation of a list of strings (Python's repeated `+=`). -/
def sjoin : List String → String
  | [] => ""
  | s :: rest => s ++ sjoin rest

/-- Python `len(s)` (number of code points). -/
def pyLen (s : String) : Nat := s.data.length

/-- Python `s[n:]` (slice from code-point index `n` to the end; empty when
`n ≥ len(s)`). -/
def pySlice (s : String) (n : Nat) : String := ⟨s.data.drop n⟩

/-- Boolean list-prefix test used to model Python `str.startswith`. -/
def lpref : List Char → List Char → Bool
  | [], _ => true
  | _ :: _, [] => false
  | a :: as, b :: bs => if a = b then lpref as bs else false

/-- Python `s.startswith(p)`. -/
def pyStartsWith (s p : String) : Bool := lpref p.data s.data

/-- Python `s.replace('"', '\\"')`. -/
def escQ (s : String) : String :=
  ⟨s.data.flatMap (fun c => if c = '"' then ['\\', '"'] else [c])⟩

/-- Python `s.replace("\n", "\\n")`. -/
def escNl (s : String) : String :=
  ⟨s.data.flatMap (fun c => if c = '\n' then ['\\', 'n'] else [c])⟩

/-! ## Tool layer (`tools.py`) -/

/-- One web result out of the Brave search response JSON
(`json_data["web"]["results"]` entries; only the fields the code reads). -/
structure BraveResult where
  title : String
  url : String
  description : String
  age : String
deriving DecidableEq

/-- Shape of the parsed response JSON, as probed by
`"web" in json_data and "results" in json_data["web"]`. -/
inductive JsonWeb where
  | absent : JsonWeb
  | results : List BraveResult → JsonWeb
deriving DecidableEq

/-- Outcome of the single HTTP GET made inside `search`'s `try` block:
either a response with a status code and a parsed JSON body, an
`aiohttp.ClientError` raised anywhere in the block (request or JSON
parsing), or any other exception raised in the block. -/
inductive HttpAttempt where
  | response : Nat → JsonWeb → HttpAttempt
  | clientError : String → HttpAttempt
  | otherExc : String → HttpAttempt
deriving DecidableEq

/-- Result of a tool call as seen by its caller: `raised slept msg` when an
exception escapes the tool function after sleeping `slept` seconds,
`returned slept payload` when the function returns normally. -/
inductive ToolOutcome where
  | raised : Nat → String → ToolOutcome
  | returned : Nat → String → ToolOutcome
deriving DecidableEq

/-- The YAML error payload `search` builds in its generic `except Exception`
handler: `query: "{query}"\nerror: "{escaped message}"`. -/
def searchErrorPayload (query msg : String) : String :=
  "query: \"" ++ query ++ "\"\nerror: \"" ++ escQ msg ++ "\""

/-- One `  - title: ...` item of the `results:` YAML block built by
`search`'s formatting loop (title and description quote-escaped, url and
age taken verbatim). -/
def braveItemYaml (r : BraveResult) : String :=
  "  - title: \"" ++ escQ r.title ++ "\"\n    url: \"" ++ r.url
    ++ "\"\n    description: \"" ++ escQ r.description
    ++ "\"\n    date: \"" ++ r.age ++ "\"\n"

/-- The normalized success payload of `search`:
`query: "{query}"\ntotal_count: {n}\nresults:\n` followed by the items. -/
def searchSuccessPayload (query : String) (rs : List BraveResult) : String :=
  "query: \"" ++ query ++ "\"\ntotal_count: " ++ toString rs.length
    ++ "\n" ++ "results:\n" ++ sjoin (rs.map braveItemYaml)

/-- The message of the `NameError` raised when the success `return`
references `total_count` without the `web.results` branch having bound it
(CPython: `name 'total_count' is not defined`). -/
def nameErrorMsg : String := "name \x27total_count\x27 is not defined"

/-- `search` from `tools.py`.  The status branches mirror the source: a 429
sleeps 2s and raises `ValueError`, a 5xx sleeps 3s and raises `ValueError`
— but both raises happen inside the function's own `try`, whose final
`except Exception` catches them and returns the YAML error payload, so the
caller sees a normal return.  Only the `aiohttp.ClientError` handler, which
raises from inside an `except` clause, lets an exception escape. -/
def search (query : String) (att : HttpAttempt) : ToolOutcome :=
  match att with
  | .clientError e =>
      ToolOutcome.raised 2 ("Network error during search, retrying: " ++ e)
  | .otherExc e => ToolOutcome.returned 0 (searchErrorPayload query e)
  | .response status body =>
      if 400 ≤ status ∧ status = 429 then
        ToolOutcome.returned 2 (searchErrorPayload query
          ("Rate limited (429), retrying search for: " ++ query))
      else if 400 ≤ status ∧ 500 ≤ status then
        ToolOutcome.returned 3 (searchErrorPayload query
          ("Server error (" ++ toString status ++ "), retrying search for: " ++ query))
      else
        match body with
        | .results rs => ToolOutcome.returned 0 (searchSuccessPayload query rs)
        | .absent => ToolOutcome.returned 0 (searchErrorPayload query nameErrorMsg)

/-- Outcome of the HTTP GET made inside `fetch`: a successful response
(final resolved URL plus the HTML text) or any exception (network error,
timeout, extraction error) raised inside the `try` block. -/
inductive FetchAttempt where
  | success : String → String → FetchAttempt
  | failure : String → FetchAttempt
deriving DecidableEq

/-- The failure payload of `fetch`:
`url: "{url}"\nstatus_code: "error"\nerror: "{escaped message}"`. -/
def fetchErrorPayload (url msg : String) : String :=
  "url: \"" ++ url ++ "\"\nstatus_code: \"error\"\nerror: \"" ++ escQ msg ++ "\""

/-- `fetch` from `tools.py`.  `extractText` models the opaque
`extract_text_content` collaborator; its output is quote-escaped then
newline-escaped.  Every branch returns: the trailing `except Exception`
turns any failure into the structured error payload. -/
def fetch (extractText : String → String) (url : String) (att : FetchAttempt) :
    ToolOutcome :=
  match att with
  | .success finalUrl html =>
      ToolOutcome.returned 0
        ("url: \"" ++ finalUrl ++ "\"\ncontent: \""
          ++ escNl (escQ (extractText html)) ++ "\"")
  | .failure e => ToolOutcome.returned 0 (fetchErrorPayload url e)

/-- `web_fetch` from `agent.py`: wraps `fetch` in one more `try/except`,
turning any escaping exception into an apologetic plain string. -/
def web_fetch (extractText : String → String) (url : String) (att : FetchAttempt) :
    String :=
  match fetch extractText url att with
  | .returned _ s => s
  | .raised _ m => "Ran into an error: " ++ m ++ ". Please try again!"

/-! ## Report snapshots and markdown rendering (`main.py`, `models.py`) -/

/-- A subsection entry of a section dict: the code reads only
`subsection.get("title", "")` and `subsection.get("content", "")`
(any deeper `subsections` key of a subsection is ignored). -/
structure SectionSub where
  title : String
  content : String
deriving DecidableEq

/-- A section dict inside the `sections` list: `section.get("title", "")`,
`section.get("content", "")` and its (possibly empty) `subsections` list.
An absent `subsections` key renders exactly like an empty list.
Non-dict entries, which the loops skip with `continue`, are outside the
modelled universe. -/
structure SectionSnap where
  title : String
  content : String
  subsections : List SectionSub
deriving DecidableEq

/-- The (possibly partial) report dict handed to `stream_to_markdown`:
each top-level field is `none` when the key is absent.  A field that is
present but empty (`some ""`, `some []`) is treated exactly like an absent
one by the renderer's truthiness tests. -/
structure ReportSnapshot where
  title : Option String
  executive_summary : Option String
  sections : Option (List SectionSnap)
  key_takeaways : Option (List String)
deriving DecidableEq

/-- Python truthiness of a possibly-absent string field
(`"k" in d and d["k"]`). -/
abbrev strTruthy (o : Option String) : Prop := o.getD "" ≠ ""

/-- Python truthiness of a possibly-absent list field. -/
abbrev listTruthy {α : Type} (o : Option (List α)) : Prop := o.getD [] ≠ []

/-- The 1-indexed numbered list built by
`for i, takeaway in enumerate(..., 1): md += f"{i}. {takeaway}\n"`. -/
def numberItems : Nat → List String → String
  | _, [] => ""
  | i, t :: ts => toString i ++ ". " ++ t ++ "\n" ++ numberItems (i + 1) ts

/-- Rendering of one subsection inside `stream_to_markdown`'s inner loop. -/
def renderSubsection (sub : SectionSub) : String :=
  (if sub.title ≠ "" then "### " ++ sub.title ++ "\n\n" else "")
    ++ (if sub.content ≠ "" then sub.content ++ "\n\n" else "")

/-- Rendering of one section inside `stream_to_markdown`'s section loop. -/
def renderSection (s : SectionSnap) : String :=
  (if s.title ≠ "" then "## " ++ s.title ++ "\n\n" else "")
    ++ (if s.content ≠ "" then s.content ++ "\n\n" else "")
    ++ (if s.subsections ≠ [] then sjoin (s.subsections.map renderSubsection) else "")

/-- `stream_to_markdown` from `main.py`: the four blocks accumulated into
`md` in order, each guarded by the dict truthiness test of its field.
The surrounding `try/except` is unreachable for well-typed snapshots. -/
def stream_to_markdown (r : ReportSnapshot) : String :=
  (if strTruthy r.title then "# " ++ r.title.getD "" ++ "\n\n" else "")
    ++ (if strTruthy r.executive_summary then
          "## Executive Summary\n\n" ++ r.executive_summary.getD "" ++ "\n\n" else "")
    ++ (if listTruthy r.sections then
          sjoin ((r.sections.getD []).map renderSection) else "")
    ++ (if listTruthy r.key_takeaways then
          "## Key Takeaways\n\n" ++ numberItems 1 (r.key_takeaways.getD []) else "")

/-- Spec rendering, title block: the spec's `# {title}\n\n`, skipped
entirely (zero characters) when the field is absent or empty. -/
def specTitleBlock (r : ReportSnapshot) : String :=
  if strTruthy r.title then "# " ++ r.title.getD "" ++ "\n\n" else ""

/-- Spec rendering, executive summary block:
`## Executive Summary\n\n{executive_summary}\n\n`, skipped when absent or
empty. -/
def specExecBlock (r : ReportSnapshot) : String :=
  if strTruthy r.executive_summary then
    "## Executive Summary\n\n" ++ r.executive_summary.getD "" ++ "\n\n"
  else ""

/-- Spec rendering of one subsection: `### {sub.title}\n\n{sub.content}\n\n`
with each piece contributing zero characters when its field is empty. -/
def specSubBlock (sub : SectionSub) : String :=
  (if sub.title ≠ "" then "### " ++ sub.title ++ "\n\n" else "")
    ++ (if sub.content ≠ "" then sub.content ++ "\n\n" else "")

/-- Spec rendering of one section: `## {section.title}\n\n{section.content}\n\n`
followed by its subsections, empty pieces contributing zero characters. -/
def specSectionBlock (s : SectionSnap) : String :=
  (if s.title ≠ "" then "## " ++ s.title ++ "\n\n" else "")
    ++ (if s.content ≠ "" then s.content ++ "\n\n" else "")
    ++ sjoin (s.subsections.map specSubBlock)

/-- Spec rendering, sections block: each section in order; an absent or
empty sections list contributes zero characters. -/
def specSectionsBlock (r : ReportSnapshot) : String :=
  sjoin ((r.sections.getD []).map specSectionBlock)

/-- Spec rendering, key takeaways block: `## Key Takeaways\n\n` followed by
a 1-indexed numbered list, emitted only when the takeaways list is
non-empty. -/
def specTakeawaysBlock (r : ReportSnapshot) : String :=
  if r.key_takeaways.getD [] = [] then ""
  else "## Key Takeaways\n\n" ++ numberItems 1 (r.key_takeaways.getD [])

/-- Snapshot B is a growth of snapshot A: every field A populates keeps its
value in B, and every field newly populated by B comes later in the fixed
rendering order (title, executive summary, sections, key takeaways) than
every field A populates. -/
def growth (A B : ReportSnapshot) : Prop :=
  (strTruthy A.title → B.title = A.title)
  ∧ (strTruthy A.executive_summary → B.executive_summary = A.executive_summary)
  ∧ (listTruthy A.sections → B.sections = A.sections)
  ∧ (listTruthy A.key_takeaways → B.key_takeaways = A.key_takeaways)
  ∧ (strTruthy B.title → ¬ strTruthy A.title →
      ¬ strTruthy A.executive_summary ∧ ¬ listTruthy A.sections
        ∧ ¬ listTruthy A.key_takeaways)
  ∧ (strTruthy B.executive_summary → ¬ strTruthy A.executive_summary →
      ¬ listTruthy A.sections ∧ ¬ listTruthy A.key_takeaways)
  ∧ (listTruthy B.sections → ¬ listTruthy A.sections →
      ¬ listTruthy A.key_takeaways)

set_option synthInstance.maxSize 2048 in
instance (A B : ReportSnapshot) : Decidable (growth A B) := by
  unfold growth
  infer_instance

/-- Pointwise growth of two equally long block lists: a block of the earlier
list is kept verbatim, and a block that the earlier list leaves empty while
a LATER block of the earlier list is non-empty must stay empty. -/
def growBlocks : List String → List String → Prop
  | [], [] => True
  | x :: xs, y :: ys =>
      (x ≠ "" → y = x)
        ∧ (x = "" → (∃ s ∈ xs, s ≠ "") → y = "")
        ∧ growBlocks xs ys
  | _, _ => False

/-! ## Incremental streamer (`main.py`) -/

/-- The protocol events yielded by the streaming generators (the JSON
payload of each `data: ...` frame, plus the terminal `data: [DONE]`
sentinel). -/
inductive StreamEvent where
  | textStart (id : String)
  | textDelta (id : String) (delta : String)
  | textEnd (id : String)
  | done
deriving DecidableEq

/-- One snapshot produced by `result.stream()` in research mode: either a
structured partial report (a pydantic object put through `model_dump()`,
or already a dict) or the `str(partial_output)` fallback for any other
type. -/
inductive Snapshot where
  | structured (r : ReportSnapshot)
  | text (s : String)
deriving DecidableEq

/-- The rendering of a snapshot: `stream_to_markdown` for structured ones,
the string itself for the text fallback. -/
def renderSnap : Snapshot → String
  | .structured r => stream_to_markdown r
  | .text s => s

/-- The `if partial_output:` truthiness gate: a dict is truthy when it has
at least one key (an object's `model_dump()` always has all four), a string
when it is non-empty. -/
def snapTruthy : Snapshot → Bool
  | .structured r =>
      r.title.isSome || r.executive_summary.isSome
        || r.sections.isSome || r.key_takeaways.isSome
  | .text s => s ≠ ""

/-- One loop iteration of `stream_response` (chat mode): the delta is the
positional suffix when the new message extends the previous one and the
whole message otherwise; a non-empty delta is emitted and the previous
text updated.  Returns (emitted deltas, new previous text). -/
def chatStep (prev msg : String) : List String × String :=
  let delta := if pyStartsWith msg prev then pySlice msg (pyLen prev) else msg
  if delta ≠ "" then ([delta], msg) else ([], prev)

/-- One loop iteration of `stream_research_response`: after the truthiness
gate, the structured branch compares renderings and always takes the
positional slice `current[len(previous):]` (updating `previous_markdown`
even when the slice is empty); the text fallback branch does the same but
updates `previous_markdown` only when it emits. -/
def researchStep (prev : String) (snap : Snapshot) : List String × String :=
  if snapTruthy snap then
    match snap with
    | .structured r =>
        let current := stream_to_markdown r
        if current ≠ prev then
          let delta := pySlice current (pyLen prev)
          ((if delta ≠ "" then [delta] else []), current)
        else ([], prev)
    | .text s =>
        let current := s
        if current ≠ prev then
          let delta := pySlice current (pyLen prev)
          if delta ≠ "" then ([delta], current) else ([], prev)
        else ([], prev)
  else ([], prev)

/-- All deltas emitted by the chat-mode loop over a message sequence,
starting from a given previous text. -/
def chatDeltas : String → List String → List String
  | _, [] => []
  | prev, m :: ms => (chatStep prev m).1 ++ chatDeltas (chatStep prev m).2 ms

/-- All deltas emitted by the research-mode loop over a snapshot sequence. -/
def researchDeltas : String → List Snapshot → List String
  | _, [] => []
  | prev, sn :: sns =>
      (researchStep prev sn).1 ++ researchDeltas (researchStep prev sn).2 sns

/-- The extra delta contributed by the `except Exception` handler of either
generator: one `Error: {message}` delta when an exception interrupted the
generation, nothing otherwise. -/
def errDeltas : Option String → List String
  | none => []
  | some e => ["Error: " ++ e]

/-- `stream_response` from `main.py`, as the list of protocol events it
yields: `text-start`, the loop's deltas, then — when an exception with
message `e` interrupts the generation — one final `Error: {e}` delta, and
in every case `text-end` plus the `[DONE]` sentinel. -/
def stream_response (msgId : String) (msgs : List String) (err : Option String) :
    List StreamEvent :=
  StreamEvent.textStart msgId ::
    ((chatDeltas "" msgs).map (StreamEvent.textDelta msgId)
      ++ (match err with
          | none => []
          | some e => [StreamEvent.textDelta msgId ("Error: " ++ e)])
      ++ [StreamEvent.textEnd msgId, StreamEvent.done])

/-- `stream_research_response` from `main.py`, as the list of protocol
events it yields. -/
def stream_research_response (msgId : String) (snaps : List Snapshot)
    (err : Option String) : List StreamEvent :=
  StreamEvent.textStart msgId ::
    ((researchDeltas "" snaps).map (StreamEvent.textDelta msgId)
      ++ (match err with
          | none => []
          | some e => [StreamEvent.textDelta msgId ("Error: " ++ e)])
      ++ [StreamEvent.textEnd msgId, StreamEvent.done])

/-- Concatenation of the `delta` fields of all `text-delta` events of a
stream, in emission order. -/
def deltaConcat (evs : List StreamEvent) : String :=
  sjoin (evs.filterMap (fun e =>
    match e with
    | .textDelta _ d => some d
    | _ => none))

/-- `monoChain p xs`: starting from previous value `p`, every element of
`xs` extends its predecessor (predecessor is a code-point prefix). -/
def monoChain : String → List String → Bool
  | _, [] => true
  | p, x :: xs => lpref p.data x.data && monoChain x xs

/-! ## Lead agent dispatch (`agent.py`) -/

/-- `Task` from `models.py` (named `ResearchTask` here because `Task` is
taken by the Lean core library). -/
structure ResearchTask where
  description : String
  focus_area : String
deriving DecidableEq

/-- `SubagentTasks` from `models.py`. -/
structure SubagentTasks where
  tasks : List ResearchTask
deriving DecidableEq

/-- `SubagentFindings` from `models.py`. -/
structure SubagentFindings where
  task_description : String
  summary : String
  key_insights : List String
  sources_found : Nat
  confidence_level : String
deriving DecidableEq

/-- The completion side of `asyncio.gather`: tasks finish in an arbitrary
completion order; each, on finishing, writes its output into the slot of
its submission index. -/
def gatherWrite (vals : Nat → Option SubagentFindings) (order : List Nat)
    (acc : Nat → Option SubagentFindings) : Nat → Option SubagentFindings :=
  order.foldl (fun s i => Function.update s i (vals i)) acc

/-- `run_subagent` from `agent.py`: dispatch every task of the batch
concurrently via `asyncio.gather` (`runSub` models the opaque
`sub_agent.run` capability; `order` is the order in which the runs
complete) and read the result slots back in submission order. -/
def run_subagent (runSub : ResearchTask → SubagentFindings) (order : List Nat)
    (batch : SubagentTasks) : List (Option SubagentFindings) :=
  let slots := gatherWrite (fun i => (batch.tasks[i]?).map runSub) order
    (fun _ => none)
  (List.range batch.tasks.length).map slots

/-- The lead agent's dispatch loop as the core executes it: the model
(opaque) decides the task batches, one per round, and the core runs
`run_subagent` for every batch it is handed — nothing in the core counts
or limits the rounds. -/
def runLeadRounds (runSub : ResearchTask → SubagentFindings)
    (batches : List SubagentTasks) : List (List (Option SubagentFindings)) :=
  batches.map (fun b => run_subagent runSub (List.range b.tasks.length) b)

/-- A concrete stand-in for the opaque `sub_agent.run` capability, used by
witnesses: echo the task description into the findings. -/
def echoFindings (t : ResearchTask) : SubagentFindings :=
  ⟨t.description, "", [], 0, "high"⟩

/-- A concrete three-task batch used by witnesses. -/
def demoBatch : SubagentTasks :=
  ⟨[⟨"t1", "f1"⟩, ⟨"t2", "f2"⟩, ⟨"t3", "f3"⟩]⟩

/-! ## String lemmas -/

theorem sdata_append (a b : String) : (a ++ b).data = a.data ++ b.data := rfl

theorem sappend_assoc (a b c : String) : a ++ b ++ c = a ++ (b ++ c) := by
  cases a; cases b; cases c
  show String.mk _ = String.mk _
  simp

theorem sappend_nil (a : String) : a ++ "" = a := by
  cases a
  show String.mk _ = String.mk _
  simp

theorem snil_append (a : String) : "" ++ a = a := by
  cases a
  show String.mk _ = String.mk _
  rfl

theorem sappend_cancel_left {a x y : String} (h : a ++ x = a ++ y) : x = y := by
  cases a; cases x; cases y
  have hd : _ ++ _ = _ ++ _ := congrArg String.data h
  simp at hd
  exact congrArg String.mk hd

theorem lpref_append_drop {a b : List Char} (h : lpref a b = true) :
    a ++ b.drop a.length = b := by
  induction a generalizing b with
  | nil => simp
  | cons c as ih =>
    cases b with
    | nil => simp [lpref] at h
    | cons d bs =>
      by_cases hc : c = d
      · subst hc
        simp only [lpref, if_pos rfl] at h
        simpa using ih h
      · simp [lpref, hc] at h

theorem lpref_of_append (a t : List Char) : lpref a (a ++ t) = true := by
  induction a with
  | nil => rfl
  | cons c as ih => simp [lpref, ih]

/-! ## Claim C1 -/

/-- Claim C1 (evidence of the code bug): for an HTTP 429 the code sleeps 2
seconds (3 for a 500) and raises a retryable `ValueError`, but that raise
happens inside `search`'s own `try`, whose generic `except Exception`
handler catches it — so the caller receives a normal `query`/`error`
payload carrying the retry message, and no exception ever reaches the
caller, contradicting the claim's "raises a retryable error to its caller
rather than returning a payload". -/
theorem search_rate_limit_and_server_error_return_payload
    (q : String) (body : JsonWeb) :
    search q (.response 429 body)
      = ToolOutcome.returned 2 (searchErrorPayload q
          ("Rate limited (429), retrying search for: " ++ q))
    ∧ search q (.response 500 body)
      = ToolOutcome.returned 3 (searchErrorPayload q
          ("Server error (500), retrying search for: " ++ q))
    ∧ (∀ slept msg, search q (.response 429 body) ≠ ToolOutcome.raised slept msg)
    ∧ (∀ slept msg, search q (.response 500 body) ≠ ToolOutcome.raised slept msg) := by
  refine ⟨rfl, rfl, ?_, ?_⟩
  · intro slept msg h
    exact ToolOutcome.noConfusion h
  · intro slept msg h
    exact ToolOutcome.noConfusion h

/-! ## Claim C8 -/

/-- Claim C8: any failure inside `fetch` (network error, timeout,
extraction error — all modelled by `FetchAttempt.failure`) yields the
structured payload `url`/`status_code: "error"`/`error`; `fetch` never
raises past its boundary on any input, and the `web_fetch` wrapper in
`agent.py` passes the payload through unchanged. -/
theorem fetch_failure_contained (extractText : String → String) (url e : String) :
    fetch extractText url (.failure e)
      = ToolOutcome.returned 0 (fetchErrorPayload url e)
    ∧ (∀ att slept msg, fetch extractText url att ≠ ToolOutcome.raised slept msg)
    ∧ web_fetch extractText url (.failure e) = fetchErrorPayload url e := by
  refine ⟨rfl, ?_, rfl⟩
  intro att slept msg h
  cases att with
  | success u html => exact ToolOutcome.noConfusion h
  | failure m => exact ToolOutcome.noConfusion h

/-! ## Claim C10 -/

/-- Claim C10: when the provider answers with a status below 400 but the
JSON has no `web.results`, the success `return` references the unbound
`total_count`, the resulting `NameError` is caught by the generic handler,
and `search` returns the `query`/`error` payload — which moreover can never
coincide with a normalized success block. -/
theorem search_missing_web_results_error_payload (q : String) (s : Nat)
    (h : s < 400) :
    search q (.response s .absent)
      = ToolOutcome.returned 0 (searchErrorPayload q nameErrorMsg)
    ∧ ∀ rs, searchErrorPayload q nameErrorMsg ≠ searchSuccessPayload q rs := by
  constructor
  · have hn : ¬ (400 ≤ s) := by omega
    simp [search, hn]
  · intro rs hcontra
    have hd := congrArg String.data hcontra
    simp only [searchErrorPayload, searchSuccessPayload, sdata_append,
      List.append_assoc] at hd
    have h2 := List.append_cancel_left (List.append_cancel_left hd)
    have hx : (("\"\nerror: \"" : String).data
        ++ ((escQ nameErrorMsg).data ++ ("\"" : String).data))[2]? = some 'e' := rfl
    rw [h2] at hx
    have hy : (("\"\ntotal_count: " : String).data
        ++ ((toString rs.length).data ++ (("\n" : String).data
          ++ (("results:\n" : String).data
            ++ (sjoin (rs.map braveItemYaml)).data))))[2]? = some 't' := rfl
    rw [hy] at hx
    exact absurd hx (by decide)

/-- Witness for claim C10 at a concrete input. -/
theorem search_missing_web_results_error_payload_witness :
    (200 : Nat) < 400
    ∧ (search "x" (.response 200 .absent)
        = ToolOutcome.returned 0 (searchErrorPayload "x" nameErrorMsg)
      ∧ ∀ rs, searchErrorPayload "x" nameErrorMsg ≠ searchSuccessPayload "x" rs) :=
  ⟨by decide, search_missing_web_results_error_payload "x" 200 (by decide)⟩

/-! ## Rendering lemmas (claims C2 and C5) -/

theorem str_eq_empty_iff (a : String) : a = "" ↔ a.data = [] := by
  cases a
  constructor
  · intro h
    exact congrArg String.data h
  · intro h
    exact congrArg String.mk h

theorem sappend_ne_empty {a : String} (b : String) (ha : a.data ≠ []) :
    a ++ b ≠ "" := by
  intro h
  rw [str_eq_empty_iff, sdata_append] at h
  exact ha (List.append_eq_nil.mp h).1

theorem sappend3_ne_empty {a : String} (b c : String) (ha : a.data ≠ []) :
    a ++ b ++ c ≠ "" := by
  rw [sappend_assoc]
  exact sappend_ne_empty _ ha

theorem titleBlock_ne_iff (r : ReportSnapshot) :
    specTitleBlock r ≠ "" ↔ strTruthy r.title := by
  by_cases h : strTruthy r.title
  · simp only [specTitleBlock, if_pos h]
    exact ⟨fun _ => h, fun _ => sappend3_ne_empty _ _ (by decide)⟩
  · simp [specTitleBlock, if_neg h, h]

theorem execBlock_ne_iff (r : ReportSnapshot) :
    specExecBlock r ≠ "" ↔ strTruthy r.executive_summary := by
  by_cases h : strTruthy r.executive_summary
  · simp only [specExecBlock, if_pos h]
    exact ⟨fun _ => h, fun _ => sappend3_ne_empty _ _ (by decide)⟩
  · simp [specExecBlock, if_neg h, h]

theorem takeawaysBlock_ne_iff (r : ReportSnapshot) :
    specTakeawaysBlock r ≠ "" ↔ listTruthy r.key_takeaways := by
  by_cases h : r.key_takeaways.getD [] = []
  · simp [specTakeawaysBlock, if_pos h, listTruthy, h]
  · simp only [specTakeawaysBlock, if_neg h]
    exact ⟨fun _ => h, fun _ => sappend_ne_empty _ (by decide)⟩

theorem sectionsBlock_ne_imp (r : ReportSnapshot) :
    specSectionsBlock r ≠ "" → listTruthy r.sections := by
  intro h
  by_contra hn
  rw [specSectionsBlock, hn] at h
  exact h rfl

theorem renderSubsection_funext : renderSubsection = specSubBlock :=
  funext (fun _ => rfl)

theorem renderSection_eq (s : SectionSnap) : renderSection s = specSectionBlock s := by
  by_cases hsub : s.subsections = []
  · simp [renderSection, specSectionBlock, hsub, sjoin]
  · simp [renderSection, specSectionBlock, hsub, renderSubsection_funext]

theorem renderSection_funext : renderSection = specSectionBlock :=
  funext renderSection_eq

/-- `stream_to_markdown` written as the join of the four spec blocks. -/
theorem render_sjoin (r : ReportSnapshot) :
    stream_to_markdown r
      = sjoin [specTitleBlock r, specExecBlock r, specSectionsBlock r,
          specTakeawaysBlock r] := by
  have hsec : (if listTruthy r.sections then
      sjoin ((r.sections.getD []).map renderSection) else "")
      = specSectionsBlock r := by
    by_cases hls : listTruthy r.sections
    · simp [if_pos hls, specSectionsBlock, renderSection_funext]
    · have hg : r.sections.getD [] = [] := not_ne_iff.mp hls
      simp [if_neg hls, specSectionsBlock, hg, sjoin]
  have htk : (if listTruthy r.key_takeaways then
      "## Key Takeaways\n\n" ++ numberItems 1 (r.key_takeaways.getD []) else "")
      = specTakeawaysBlock r := by
    by_cases hlt : listTruthy r.key_takeaways
    · have hg : ¬ (r.key_takeaways.getD [] = []) := hlt
      simp [if_pos hlt, specTakeawaysBlock, if_neg hg]
    · have hg : r.key_takeaways.getD [] = [] := not_ne_iff.mp hlt
      simp [if_neg hlt, specTakeawaysBlock, if_pos hg]
  simp only [stream_to_markdown, specTitleBlock, specExecBlock] at *
  rw [hsec, htk]
  simp [sjoin, sappend_nil, sappend_assoc]

theorem sjoin_all_empty {l : List String} (h : ∀ s ∈ l, s = "") : sjoin l = "" := by
  induction l with
  | nil => rfl
  | cons x xs ih =>
    rw [sjoin, h x (List.mem_cons_self x xs), snil_append]
    exact ih (fun s hs => h s (List.mem_cons_of_mem _ hs))

theorem growBlocks_ext : ∀ (xs ys : List String), growBlocks xs ys →
    ∃ t, sjoin ys = sjoin xs ++ t := by
  intro xs
  induction xs with
  | nil =>
    intro ys h
    cases ys with
    | nil => exact ⟨"", (sappend_nil _).symm⟩
    | cons y ys => exact h.elim
  | cons x xs ih =>
    intro ys h
    cases ys with
    | nil => exact h.elim
    | cons y ys =>
      obtain ⟨h1, h2, h3⟩ := h
      obtain ⟨t, ht⟩ := ih ys h3
      by_cases hx : x = ""
      · by_cases hex : ∃ s ∈ xs, s ≠ ""
        · have hy : y = "" := h2 hx hex
          refine ⟨t, ?_⟩
          simp only [sjoin, hx, hy, snil_append, ht]
        · push_neg at hex
          refine ⟨y ++ sjoin ys, ?_⟩
          have hxe : sjoin (x :: xs) = "" := by
            rw [sjoin, hx, snil_append]
            exact sjoin_all_empty hex
          rw [hxe, snil_append]
          rfl
      · have hy : y = x := h1 hx
        refine ⟨t, ?_⟩
        simp only [sjoin, hy, ht]
        rw [sappend_assoc]

theorem growth_growBlocks {A B : ReportSnapshot} (h : growth A B) :
    growBlocks
      [specTitleBlock A, specExecBlock A, specSectionsBlock A, specTakeawaysBlock A]
      [specTitleBlock B, specExecBlock B, specSectionsBlock B, specTakeawaysBlock B] := by
  obtain ⟨g1, g2, g3, g4, g5, g6, g7⟩ := h
  refine ⟨?_, ?_, ?_, ?_, ?_, ?_, ?_, ?_, trivial⟩
  · intro ha
    simp only [specTitleBlock, g1 ((titleBlock_ne_iff A).mp ha)]
  · intro ha hex
    have hnA : ¬ strTruthy A.title := fun ht => (titleBlock_ne_iff A).mpr ht ha
    have hlater : strTruthy A.executive_summary ∨ listTruthy A.sections
        ∨ listTruthy A.key_takeaways := by
      rcases hex with ⟨s, hs, hne⟩
      simp only [List.mem_cons, List.mem_singleton, List.not_mem_nil, or_false] at hs
      rcases hs with h2 | h3 | h4
      · exact Or.inl ((execBlock_ne_iff A).mp (h2 ▸ hne))
      · exact Or.inr (Or.inl (sectionsBlock_ne_imp A (h3 ▸ hne)))
      · exact Or.inr (Or.inr ((takeawaysBlock_ne_iff A).mp (h4 ▸ hne)))
    have hnB : ¬ strTruthy B.title := by
      intro htB
      obtain ⟨hne, hns, hnk⟩ := g5 htB hnA
      rcases hlater with hl | hl | hl
      exacts [hne hl, hns hl, hnk hl]
    simp [specTitleBlock, hnB]
  · intro ha
    simp only [specExecBlock, g2 ((execBlock_ne_iff A).mp ha)]
  · intro ha hex
    have hnA : ¬ strTruthy A.executive_summary :=
      fun ht => (execBlock_ne_iff A).mpr ht ha
    have hlater : listTruthy A.sections ∨ listTruthy A.key_takeaways := by
      rcases hex with ⟨s, hs, hne⟩
      simp only [List.mem_cons, List.mem_singleton, List.not_mem_nil, or_false] at hs
      rcases hs with h3 | h4
      · exact Or.inl (sectionsBlock_ne_imp A (h3 ▸ hne))
      · exact Or.inr ((takeawaysBlock_ne_iff A).mp (h4 ▸ hne))
    have hnB : ¬ strTruthy B.executive_summary := by
      intro htB
      obtain ⟨hns, hnk⟩ := g6 htB hnA
      rcases hlater with hl | hl
      exacts [hns hl, hnk hl]
    simp [specExecBlock, hnB]
  · intro ha
    simp only [specSectionsBlock, g3 (sectionsBlock_ne_imp A ha)]
  · intro ha hex
    by_cases hls : listTruthy A.sections
    · rw [specSectionsBlock, g3 hls]
      exact ha
    · have hk : listTruthy A.key_takeaways := by
        rcases hex with ⟨s, hs, hne⟩
        simp only [List.mem_singleton] at hs
        exact (takeawaysBlock_ne_iff A).mp (hs ▸ hne)
      have hnB : ¬ listTruthy B.sections := fun htB => g7 htB hls hk
      have hg : B.sections.getD [] = [] := not_ne_iff.mp hnB
      rw [specSectionsBlock, hg]
      rfl
  · intro ha
    simp only [specTakeawaysBlock, g4 ((takeawaysBlock_ne_iff A).mp ha)]
  · intro _ hex
    rcases hex with ⟨s, hs, _⟩
    exact absurd hs (List.not_mem_nil s)

/-! ## Claim C2 -/

/-- Claim C2: when snapshot B keeps every field value A populates unchanged
and only adds fields that come later in the fixed rendering order, the
markdown rendering of A is a string prefix of the rendering of B. -/
theorem render_growth_extends {A B : ReportSnapshot} (h : growth A B) :
    ∃ t, stream_to_markdown B = stream_to_markdown A ++ t := by
  obtain ⟨t, ht⟩ := growBlocks_ext _ _ (growth_growBlocks h)
  refine ⟨t, ?_⟩
  rw [render_sjoin, render_sjoin, ht]

/-- Witness for claim C2: a snapshot with only a title, grown by an
executive summary. -/
theorem render_growth_extends_witness :
    growth
      (⟨some "T", none, none, none⟩ : ReportSnapshot)
      (⟨some "T", some "E", none, none⟩ : ReportSnapshot)
    ∧ ∃ t, stream_to_markdown (⟨some "T", some "E", none, none⟩ : ReportSnapshot)
        = stream_to_markdown (⟨some "T", none, none, none⟩ : ReportSnapshot) ++ t :=
  ⟨by decide, render_growth_extends (by decide)⟩

/-! ## Claim C5 -/

/-- Claim C5: the renderer is the concatenation, in the fixed order, of the
spec's title, executive summary, sections (each with its subsections) and
key-takeaways blocks — each block contributing zero characters when its
source field is absent or empty — and the `## Key Takeaways` block is
non-empty exactly when the takeaways list is non-empty. -/
theorem stream_to_markdown_block_structure (r : ReportSnapshot) :
    stream_to_markdown r
      = specTitleBlock r ++ specExecBlock r ++ specSectionsBlock r
        ++ specTakeawaysBlock r
    ∧ (specTakeawaysBlock r ≠ "" ↔ listTruthy r.key_takeaways) := by
  constructor
  · rw [render_sjoin]
    simp [sjoin, sappend_nil, sappend_assoc]
  · exact takeawaysBlock_ne_iff r

/-! ## Streamer lemmas (claims C3, C4, C6) -/

theorem spref_extend {prev cur : String} (h : lpref prev.data cur.data = true) :
    prev ++ pySlice cur (pyLen prev) = cur := by
  cases prev; cases cur
  exact congrArg String.mk (lpref_append_drop h)

theorem slice_ne_of_proper {prev cur : String}
    (h : lpref prev.data cur.data = true) (hne : cur ≠ prev) :
    pySlice cur (pyLen prev) ≠ "" := by
  intro h0
  apply hne
  have hext := spref_extend h
  rw [h0, sappend_nil] at hext
  exact hext.symm

theorem render_gate_false {sn : Snapshot} (h : snapTruthy sn = false) :
    renderSnap sn = "" := by
  cases sn with
  | text s =>
    have hs : s = "" := by simpa [snapTruthy] using h
    simp [renderSnap, hs]
  | structured r =>
    obtain ⟨t, e, sec, k⟩ := r
    simp only [snapTruthy, Bool.or_eq_false_iff] at h
    cases t <;> cases e <;> cases sec <;> cases k <;>
      simp_all [renderSnap, stream_to_markdown, strTruthy, listTruthy,
        sappend_nil, snil_append]

theorem chatStep_mono {prev m : String} (h1 : lpref prev.data m.data = true) :
    (chatStep prev m = ([], prev) ∧ m = prev)
    ∨ chatStep prev m = ([pySlice m (pyLen prev)], m) := by
  by_cases hd : pySlice m (pyLen prev) = ""
  · left
    have heq : m = prev := by
      have hext := spref_extend h1
      rw [hd, sappend_nil] at hext
      exact hext.symm
    constructor
    · simp [chatStep, pyStartsWith, h1, hd]
    · exact heq
  · right
    simp [chatStep, pyStartsWith, h1, hd]

theorem researchStep_mono {prev : String} {sn : Snapshot}
    (h1 : lpref prev.data (renderSnap sn).data = true) :
    (researchStep prev sn = ([], prev) ∧ renderSnap sn = prev)
    ∨ researchStep prev sn = ([pySlice (renderSnap sn) (pyLen prev)], renderSnap sn) := by
  by_cases hg : snapTruthy sn
  · cases sn with
    | structured r =>
      by_cases hne : stream_to_markdown r ≠ prev
      · right
        have hr : renderSnap (Snapshot.structured r) = stream_to_markdown r := rfl
        have hsl : pySlice (stream_to_markdown r) (pyLen prev) ≠ "" :=
          slice_ne_of_proper (hr ▸ h1) hne
        simp [researchStep, hg, hne, hsl, renderSnap]
      · left
        rw [not_ne_iff] at hne
        refine ⟨by simp [researchStep, hg, hne], hne⟩
    | text s =>
      by_cases hne : s ≠ prev
      · right
        have hsl : pySlice s (pyLen prev) ≠ "" := slice_ne_of_proper h1 hne
        simp [researchStep, hg, hne, hsl, renderSnap]
      · left
        rw [not_ne_iff] at hne
        refine ⟨by simp [researchStep, hg, hne], hne⟩
  · left
    have hr : renderSnap sn = "" :=
      render_gate_false (Bool.of_not_eq_true hg)
    have hp : prev = "" := by
      rw [hr] at h1
      cases prev with
      | mk l =>
        cases l with
        | nil => rfl
        | cons c cs => exact absurd h1 (by simp [lpref])
    refine ⟨?_, hr.trans hp.symm⟩
    simp [researchStep, Bool.of_not_eq_true hg]

theorem chatDeltas_concat : ∀ (msgs : List String) (prev : String),
    monoChain prev msgs = true →
    prev ++ sjoin (chatDeltas prev msgs) = msgs.getLastD prev := by
  intro msgs
  induction msgs with
  | nil =>
    intro prev _
    simp [chatDeltas, sjoin, sappend_nil, List.getLastD]
  | cons m ms ih =>
    intro prev h
    rw [monoChain, Bool.and_eq_true] at h
    obtain ⟨h1, h2⟩ := h
    rw [chatDeltas, List.getLastD_cons]
    rcases chatStep_mono h1 with ⟨hstep, heq⟩ | hstep
    · rw [hstep]
      simp only [List.nil_append]
      rw [ih prev (heq ▸ h2)]
      rw [heq]
    · rw [hstep]
      simp only [List.singleton_append]
      rw [sjoin, ← sappend_assoc, spref_extend h1]
      exact ih m h2

theorem researchDeltas_concat : ∀ (snaps : List Snapshot) (prev : String),
    monoChain prev (snaps.map renderSnap) = true →
    prev ++ sjoin (researchDeltas prev snaps)
      = (snaps.map renderSnap).getLastD prev := by
  intro snaps
  induction snaps with
  | nil =>
    intro prev _
    simp [researchDeltas, sjoin, sappend_nil, List.getLastD]
  | cons sn sns ih =>
    intro prev h
    rw [List.map_cons, monoChain, Bool.and_eq_true] at h
    obtain ⟨h1, h2⟩ := h
    rw [researchDeltas, List.map_cons, List.getLastD_cons]
    rcases researchStep_mono h1 with ⟨hstep, heq⟩ | hstep
    · rw [hstep]
      simp only [List.nil_append]
      rw [ih prev (heq ▸ h2)]
      rw [heq]
    · rw [hstep]
      simp only [List.singleton_append]
      rw [sjoin, ← sappend_assoc, spref_extend h1]
      exact ih (renderSnap sn) h2

theorem chatStep_fst_ne {prev m d : String} (h : d ∈ (chatStep prev m).1) :
    d ≠ "" := by
  by_cases hd : (if pyStartsWith m prev then pySlice m (pyLen prev) else m) = ""
  · simp [chatStep, hd] at h
  · simp [chatStep, hd] at h
    rw [h]
    exact hd

theorem researchStep_fst_ne {prev : String} {sn : Snapshot} {d : String}
    (h : d ∈ (researchStep prev sn).1) : d ≠ "" := by
  by_cases hg : snapTruthy sn
  · cases sn with
    | structured r =>
      by_cases hne : stream_to_markdown r ≠ prev
      · by_cases hsl : pySlice (stream_to_markdown r) (pyLen prev) = ""
        · simp [researchStep, hg, hne, hsl] at h
        · simp [researchStep, hg, hne, hsl] at h
          rw [h]
          exact hsl
      · simp [researchStep, hg, hne] at h
    | text s =>
      by_cases hne : s ≠ prev
      · by_cases hsl : pySlice s (pyLen prev) = ""
        · simp [researchStep, hg, hne, hsl] at h
        · simp [researchStep, hg, hne, hsl] at h
          rw [h]
          exact hsl
      · simp [researchStep, hg, hne] at h
  · simp [researchStep, hg] at h

theorem chatDeltas_ne : ∀ (msgs : List String) (prev d : String),
    d ∈ chatDeltas prev msgs → d ≠ "" := by
  intro msgs
  induction msgs with
  | nil =>
    intro prev d h
    exact absurd h (List.not_mem_nil d)
  | cons m ms ih =>
    intro prev d h
    rw [chatDeltas] at h
    rcases List.mem_append.mp h with h | h
    · exact chatStep_fst_ne h
    · exact ih _ d h

theorem researchDeltas_ne : ∀ (snaps : List Snapshot) (prev d : String),
    d ∈ researchDeltas prev snaps → d ≠ "" := by
  intro snaps
  induction snaps with
  | nil =>
    intro prev d h
    exact absurd h (List.not_mem_nil d)
  | cons sn sns ih =>
    intro prev d h
    rw [researchDeltas] at h
    rcases List.mem_append.mp h with h | h
    · exact researchStep_fst_ne h
    · exact ih _ d h

theorem filterMap_delta_comp (msgId : String) (l : List String) :
    List.filterMap ((fun e =>
        match e with
        | StreamEvent.textDelta _ d => some d
        | _ => none) ∘ StreamEvent.textDelta msgId) l = l := by
  induction l with
  | nil => rfl
  | cons x xs ih => exact congrArg (List.cons x) ih

theorem deltaConcat_chat (msgId : String) (msgs : List String) (err : Option String) :
    deltaConcat (stream_response msgId msgs err)
      = sjoin (chatDeltas "" msgs ++ errDeltas err) := by
  cases err <;>
    simp [stream_response, deltaConcat, errDeltas, List.filterMap_append,
      List.filterMap_map, List.filterMap_cons, filterMap_delta_comp]

theorem deltaConcat_research (msgId : String) (snaps : List Snapshot)
    (err : Option String) :
    deltaConcat (stream_research_response msgId snaps err)
      = sjoin (researchDeltas "" snaps ++ errDeltas err) := by
  cases err <;>
    simp [stream_research_response, deltaConcat, errDeltas, List.filterMap_append,
      List.filterMap_map, List.filterMap_cons, filterMap_delta_comp]

/-! ## Claim C3 -/

/-- Claim C3 counterexample: in structured research mode, with previous
rendering `# T\n\n## Executive Summary\n\nE\n\n` and a current snapshot
rendering to `# T\n\n` (not an extension of the previous rendering), the
streamer emits nothing at all — current[len(previous):] is empty — instead
of emitting the entire current rendering as the claim demands. -/
theorem research_non_monotone_emits_slice_cex :
    pyStartsWith (stream_to_markdown ⟨some "T", none, none, none⟩)
      "# T\n\n## Executive Summary\n\nE\n\n" = false
    ∧ researchStep "# T\n\n## Executive Summary\n\nE\n\n"
        (Snapshot.structured ⟨some "T", none, none, none⟩)
        = ([], "# T\n\n")
    ∧ ([] : List String) ≠ ["# T\n\n"] :=
  ⟨by decide, by decide, by decide⟩

/-- Claim C3 amended: only the chat-mode streamer has the full-replacement
fallback — a non-prefix snapshot is emitted verbatim in full; the research-
mode streamer performs no prefix check at all and only ever emits the
positional suffix `current[len(previous):]` (possibly nothing), in both its
structured and its text branch. -/
theorem streamer_fallback_behaviour :
    (∀ prev msg, pyStartsWith msg prev = false → msg ≠ "" →
      chatStep prev msg = ([msg], msg))
    ∧ ∀ prev snap, (researchStep prev snap).1 = []
        ∨ (researchStep prev snap).1 = [pySlice (renderSnap snap) (pyLen prev)] := by
  constructor
  · intro prev msg h hne
    simp [chatStep, h, hne]
  · intro prev snap
    by_cases hg : snapTruthy snap
    · cases snap with
      | structured r =>
        by_cases hne : stream_to_markdown r ≠ prev
        · by_cases hsl : pySlice (stream_to_markdown r) (pyLen prev) = ""
          · left
            simp [researchStep, hg, hne, hsl]
          · right
            simp [researchStep, hg, hne, hsl, renderSnap]
        · left
          simp [researchStep, hg, hne]
      | text s =>
        by_cases hne : s ≠ prev
        · by_cases hsl : pySlice s (pyLen prev) = ""
          · left
            simp [researchStep, hg, hne, hsl]
          · right
            simp [researchStep, hg, hne, hsl, renderSnap]
        · left
          simp [researchStep, hg, hne]
    · left
      simp [researchStep, hg]

/-- Witness for the amended claim C3 at concrete inputs. -/
theorem streamer_fallback_behaviour_witness :
    (pyStartsWith "b" "ab" = false ∧ ("b" : String) ≠ ""
      ∧ chatStep "ab" "b" = (["b"], "b"))
    ∧ ((researchStep "ab" (Snapshot.text "b")).1 = []
        ∨ (researchStep "ab" (Snapshot.text "b")).1
            = [pySlice (renderSnap (Snapshot.text "b")) (pyLen "ab")]) :=
  ⟨⟨by decide, by decide, streamer_fallback_behaviour.1 "ab" "b" (by decide) (by decide)⟩,
    streamer_fallback_behaviour.2 "ab" (Snapshot.text "b")⟩

/-! ## Claim C4 -/

/-- Claim C4 counterexample: a chat-mode stream whose snapshots are not
prefix-monotone (`"b"` then `"a"`): the emitted deltas concatenate to
`"ba"`, not to the final full text `"a"`. -/
theorem delta_concat_non_monotone_cex :
    deltaConcat (stream_response "m1" ["b", "a"] none) = "ba"
    ∧ ("ba" : String) ≠ "a" :=
  ⟨by decide, by decide⟩

/-- Claim C4 amended: when the successive snapshots are prefix-monotone
(each rendering extends the previous one, starting from the empty string)
and the stream ends without an exception, concatenating all emitted deltas
reconstructs exactly the final rendering (research mode) or the final full
text (chat mode). -/
theorem delta_concat_monotone (msgId : String) (msgs : List String)
    (snaps : List Snapshot)
    (hchat : monoChain "" msgs = true)
    (hres : monoChain "" (snaps.map renderSnap) = true) :
    deltaConcat (stream_response msgId msgs none) = msgs.getLastD ""
    ∧ deltaConcat (stream_research_response msgId snaps none)
        = (snaps.map renderSnap).getLastD "" := by
  constructor
  · rw [deltaConcat_chat, errDeltas, List.append_nil]
    rw [← chatDeltas_concat msgs "" hchat, snil_append]
  · rw [deltaConcat_research, errDeltas, List.append_nil]
    rw [← researchDeltas_concat snaps "" hres, snil_append]

/-- Witness for the amended claim C4: a monotone chat stream and a monotone
structured research stream. -/
theorem delta_concat_monotone_witness :
    (monoChain "" ["a", "ab"] = true)
    ∧ (monoChain ""
        ([Snapshot.structured ⟨some "T", none, none, none⟩,
          Snapshot.structured ⟨some "T", some "E", none, none⟩].map renderSnap) = true)
    ∧ (deltaConcat (stream_response "m" ["a", "ab"] none) = ["a", "ab"].getLastD ""
      ∧ deltaConcat (stream_research_response "m"
            [Snapshot.structured ⟨some "T", none, none, none⟩,
             Snapshot.structured ⟨some "T", some "E", none, none⟩] none)
          = ([Snapshot.structured ⟨some "T", none, none, none⟩,
              Snapshot.structured ⟨some "T", some "E", none, none⟩].map
                renderSnap).getLastD "") :=
  ⟨by decide, by decide, delta_concat_monotone "m" _ _ (by decide) (by decide)⟩

/-! ## Claim C6 -/

/-- Claim C6: every stream of either generator is exactly one `text-start`,
then zero or more `text-delta` events each carrying a non-empty delta —
including, after an exception, one final `Error: ...` delta — then exactly
one `text-end` and one done sentinel, with nothing after it. -/
theorem stream_event_sequence_invariant (msgId : String) (msgs : List String)
    (snaps : List Snapshot) (errA errB : Option String) :
    (∃ ds : List String, (∀ d ∈ ds, d ≠ "")
      ∧ stream_response msgId msgs errA
          = StreamEvent.textStart msgId
              :: (ds.map (StreamEvent.textDelta msgId)
                ++ [StreamEvent.textEnd msgId, StreamEvent.done]))
    ∧ (∃ ds : List String, (∀ d ∈ ds, d ≠ "")
      ∧ stream_research_response msgId snaps errB
          = StreamEvent.textStart msgId
              :: (ds.map (StreamEvent.textDelta msgId)
                ++ [StreamEvent.textEnd msgId, StreamEvent.done])) := by
  constructor
  · refine ⟨chatDeltas "" msgs ++ errDeltas errA, ?_, ?_⟩
    · intro d hd
      rcases List.mem_append.mp hd with h | h
      · exact chatDeltas_ne msgs "" d h
      · cases errA with
        | none => exact absurd h (List.not_mem_nil d)
        | some e =>
          rw [errDeltas, List.mem_singleton] at h
          rw [h]
          exact sappend_ne_empty _ (by decide)
    · cases errA <;> simp [stream_response, errDeltas, List.map_append]
  · refine ⟨researchDeltas "" snaps ++ errDeltas errB, ?_, ?_⟩
    · intro d hd
      rcases List.mem_append.mp hd with h | h
      · exact researchDeltas_ne snaps "" d h
      · cases errB with
        | none => exact absurd h (List.not_mem_nil d)
        | some e =>
          rw [errDeltas, List.mem_singleton] at h
          rw [h]
          exact sappend_ne_empty _ (by decide)
    · cases errB <;> simp [stream_research_response, errDeltas, List.map_append]

/-! ## Dispatcher lemmas (claims C7, C9) -/

theorem gatherWrite_cons (vals : Nat → Option SubagentFindings) (j : Nat)
    (rest : List Nat) (acc : Nat → Option SubagentFindings) :
    gatherWrite vals (j :: rest) acc
      = gatherWrite vals rest (Function.update acc j (vals j)) := rfl

theorem gatherWrite_not_mem (vals : Nat → Option SubagentFindings) :
    ∀ (order : List Nat) (acc : Nat → Option SubagentFindings) (i : Nat),
      i ∉ order → gatherWrite vals order acc i = acc i := by
  intro order
  induction order with
  | nil =>
    intro acc i _
    rfl
  | cons j rest ih =>
    intro acc i h
    have hj : i ≠ j := fun he => h (he ▸ List.mem_cons_self j rest)
    have hr : i ∉ rest := fun hm => h (List.mem_cons_of_mem j hm)
    rw [gatherWrite_cons, ih _ i hr]
    exact Function.update_noteq hj _ _

theorem gatherWrite_mem (vals : Nat → Option SubagentFindings) :
    ∀ (order : List Nat) (acc : Nat → Option SubagentFindings) (i : Nat),
      i ∈ order → gatherWrite vals order acc i = vals i := by
  intro order
  induction order with
  | nil =>
    intro acc i h
    exact absurd h (List.not_mem_nil i)
  | cons j rest ih =>
    intro acc i h
    by_cases hm : i ∈ rest
    · rw [gatherWrite_cons]
      exact ih _ i hm
    · have hij : i = j := by
        rcases List.mem_cons.mp h with he | he
        · exact he
        · exact absurd he hm
      subst hij
      rw [gatherWrite_cons, gatherWrite_not_mem vals rest _ i hm]
      exact Function.update_same i _ _

/-! ## Claim C7 -/

/-- Claim C7: whatever the completion order of the concurrently dispatched
subagent runs (any permutation of the submission indices), `run_subagent`
returns one findings entry per task, with the i-th entry holding the
findings of the i-th task of the batch. -/
theorem run_subagent_preserves_order (runSub : ResearchTask → SubagentFindings)
    (order : List Nat) (batch : SubagentTasks)
    (h : order.Perm (List.range batch.tasks.length)) :
    run_subagent runSub order batch
      = batch.tasks.map (fun t => some (runSub t)) := by
  unfold run_subagent
  apply List.ext_getElem
  · simp
  · intro i h1 h2
    have hilt : i < batch.tasks.length := by simpa using h1
    have hio : i ∈ order := h.mem_iff.mpr (List.mem_range.mpr hilt)
    simp only [List.getElem_map, List.getElem_range]
    rw [gatherWrite_mem _ order _ i hio]
    simp [List.getElem?_eq_getElem hilt]

/-- Witness for claim C7: three tasks whose runs complete in order
T3, T1, T2 still yield findings in submission order. -/
theorem run_subagent_preserves_order_witness :
    ([2, 0, 1] : List Nat).Perm (List.range demoBatch.tasks.length)
    ∧ run_subagent echoFindings [2, 0, 1] demoBatch
        = demoBatch.tasks.map (fun t => some (echoFindings t)) :=
  ⟨by decide, run_subagent_preserves_order echoFindings [2, 0, 1] demoBatch (by decide)⟩

/-! ## Claim C9 -/

/-- Claim C9 counterexample: the core executes every dispatch round the
model asks for — here a policy of 4 rounds (3 follow-up rounds after the
initial one) runs all 4, exceeding the claimed hard cap of 3 total. -/
theorem round_cap_not_enforced_cex :
    (runLeadRounds echoFindings (List.replicate 4 demoBatch)).length = 4
    ∧ ¬ ((4 : Nat) ≤ 3) :=
  ⟨by decide, by decide⟩

/-- Claim C9 amended: the 2-follow-up-round limit lives only in the lead
agent's prompt text (guidance to the model); the core itself executes
exactly as many rounds as the model requests, with no bound. -/
theorem lead_rounds_unbounded (runSub : ResearchTask → SubagentFindings)
    (batches : List SubagentTasks) :
    (runLeadRounds runSub batches).length = batches.length := by
  simp [runLeadRounds]
